import Mathlib

/-!
# VRChat-FriendWatcher: verification of the presence reconciliation engine

Shallow embedding of the core presence logic of the repository:

* `core/realtime_ws.py` — `TokenBucket`, `WebSocketFriendSource`
  (`run`'s reconnect/backoff loop, `_handle_one_event`'s normalization,
  `_handle_online` / `_handle_offline` / `_flush_list_update` /
  `_resync_with_rest`, `_is_target`).
* `core/watcher.py` — `WatcherThread.run`'s polling loop body.

Conventions of the embedding:

* Python `time.monotonic()` / `time.time()` values and float durations are
  modelled as rationals (`ℚ`); the watcher's integer backoff and interval
  are modelled as `ℕ`.
* Python `set` becomes `Finset String`; Python `dict` for the name cache
  becomes an association list with "latest assignment wins" semantics.
* Decoded JSON values (the result of `json.loads`) become the inductive
  `JValue`; Python `None` (both JSON `null` and a missing dict key) is
  `JValue.jnull`.  `json.loads` applied to a *nested* string payload is an
  external library call and is passed in as an oracle
  `decode : String → Option JValue` (`none` = raised decode error).
* The outbound `queue.Queue` becomes the list of events produced by a call,
  in `put` order.  Event payload strings that the code builds from logging
  text (the `error` message) keep only the interpolated exception text.
-/

/-- One `{id, name}` entry as passed around by the code (`f["id"]`, `f["name"]`). -/
structure Entry where
  id : String
  name : String
deriving DecidableEq

/-! ## Token bucket — `core/realtime_ws.py`, class `TokenBucket` -/

/-- State of `TokenBucket`: `capacity`, `tokens`, `reset_at`.
`reset_at` is a monotonic-clock timestamp (`time.monotonic() + 60`). -/
structure TokenBucket where
  capacity : ℕ
  tokens : ℕ
  resetAt : ℚ
deriving DecidableEq

/-- Constructor `TokenBucket.__init__(capacity_per_min)` with construction time `now`. -/
def TokenBucket.init (capacityPerMin : ℕ) (now : ℚ) : TokenBucket :=
  { capacity := capacityPerMin, tokens := capacityPerMin, resetAt := now + 60 }

/-- Method `TokenBucket.allow(n)` called at monotonic time `now`: hard window reset
when `now >= reset_at`, then grant iff `tokens >= n`. Returns the decision
and the updated bucket. -/
def TokenBucket.allow (b : TokenBucket) (now : ℚ) (n : ℕ) : Bool × TokenBucket :=
  let b1 := if b.resetAt ≤ now then
    { b with tokens := b.capacity, resetAt := now + 60 } else b
  if n ≤ b1.tokens then (true, { b1 with tokens := b1.tokens - n })
  else (false, b1)

/-- A sequence of `allow` calls, each a `(now, n)` pair; returns the final
bucket and the per-call trace `(now, n, granted)`. -/
def TokenBucket.runAllow (b : TokenBucket) : List (ℚ × ℕ) → TokenBucket × List (ℚ × ℕ × Bool)
  | [] => (b, [])
  | (now, n) :: rest =>
    let r := b.allow now n
    let r2 := r.2.runAllow rest
    (r2.1, (now, n, r.1) :: r2.2)

/-- Total of `n` over granted calls of a trace whose time lies in the
half-open window `[lo, hi)`. -/
def grantedBetween (lo hi : ℚ) : List (ℚ × ℕ × Bool) → ℕ
  | [] => 0
  | (t, n, ok) :: tr => (if lo ≤ t ∧ t < hi ∧ ok = true then n else 0) + grantedBetween lo hi tr

/-- Total of `n` over all granted calls of a trace. -/
def grantedTotal : List (ℚ × ℕ × Bool) → ℕ
  | [] => 0
  | (_, n, ok) :: tr => (if ok then n else 0) + grantedTotal tr

/-! ## Polling fallback loop — `core/watcher.py`, `WatcherThread` -/

/-- The mutable state of `WatcherThread` that one loop iteration reads and
writes: `prev_online_ids`, `first_run`, `_backoff`. -/
structure WatcherState where
  prevOnlineIds : Finset String
  firstRun : Bool
  backoff : ℕ
deriving DecidableEq

/-- Events the watcher puts on the queue (payloads as in the code:
`online_now` and `list_update` carry `[{id, name}, ...]` lists;
`heartbeat` carries a wall-clock string we do not model; `error` carries
the exception text). -/
inductive WatcherEv where
  | onlineNow (friends : List Entry)
  | listUpdate (friends : List Entry)
  | heartbeat
  | error (msg : String)
deriving DecidableEq

/-- The set comprehension `{f["id"] for f in friends}`. -/
def idsOf (friends : List Entry) : Finset String :=
  friends.foldr (fun f s => insert f.id s) ∅

/-- One iteration of the `while` body of `WatcherThread.run`.
`pull` is the outcome of `self.vrc.fetch_online_friends()` (`Except.error`
models a raised exception).  Returns the updated state, the queue events in
`put` order, and the argument of the trailing `_sleep_with_stop`.
`interval` is `self.interval` (already clamped to `max(5, ...)` by
`__init__`). -/
def watcherStep (firstRunNoNotify : Bool) (interval : ℕ) (st : WatcherState)
    (pull : Except String (List Entry)) : WatcherState × List WatcherEv × ℕ :=
  match pull with
  | .error e =>
    -- `except` branch: error event, wait `min(self._backoff, 60)`,
    -- then `self._backoff = min(self._backoff * 2, 60)`.
    ({ st with backoff := min (st.backoff * 2) 60 },
     [.error e], min st.backoff 60)
  | .ok friends =>
    let nowIds := idsOf friends
    let newlyOnline :=
      if st.firstRun && firstRunNoNotify then []
      else friends.filter (fun f => f.id ∈ nowIds \ st.prevOnlineIds)
    let evs :=
      (if newlyOnline.isEmpty then [] else [WatcherEv.onlineNow newlyOnline])
        ++ [WatcherEv.listUpdate friends, WatcherEv.heartbeat]
    (⟨nowIds, false, 1⟩, evs, interval)

/-- Tests whether the event is an `online_now` notification. -/
def WatcherEv.isOnlineNow : WatcherEv → Bool
  | .onlineNow _ => true
  | _ => false

/-- Tests whether the event is an `error` event. -/
def WatcherEv.isError : WatcherEv → Bool
  | .error _ => true
  | _ => false

/-! ## Decoded JSON values and Python-ism helpers -/

/-- A decoded JSON value as Python sees it after `json.loads`.
`jnull` doubles for Python `None` (JSON `null` decodes to `None`, and
`dict.get` of a missing key yields `None`). -/
inductive JValue where
  | jnull
  | jbool (b : Bool)
  | jnum (n : ℤ)
  | jstr (s : String)
  | jarr (elems : List JValue)
  | jobj (fields : List (String × JValue))

/-- Python `dict.get(k)`: first binding wins (the concrete frames we reason about
have no duplicate keys). Missing key yields `None`. -/
def pyGet (fields : List (String × JValue)) (k : String) : JValue :=
  ((fields.find? (fun p => p.1 == k)).map Prod.snd).getD .jnull

/-- Python truthiness of a decoded JSON value. -/
def JValue.truthy : JValue → Bool
  | .jnull => false
  | .jbool b => b
  | .jnum n => n != 0
  | .jstr s => s != ""
  | .jarr xs => !xs.isEmpty
  | .jobj fs => !fs.isEmpty

/-- Python `a or b` over decoded values. -/
def pyOr (a b : JValue) : JValue := if a.truthy then a else b

/-- Python `x is None`. -/
def JValue.isNull : JValue → Bool
  | .jnull => true
  | _ => false

/-- Python `str(...)` of a decoded value.  Containers are abstracted to a
placeholder: only string payloads reach a `str(...)` whose exact text
matters to the logic (type keywords and ids), and the placeholders can
never collide with those keywords. -/
def JValue.pyStr : JValue → String
  | .jnull => "None"
  | .jbool true => "True"
  | .jbool false => "False"
  | .jnum n => toString n
  | .jstr s => s
  | .jarr _ => "[pylist]"
  | .jobj _ => "[pydict]"

/-- Python `str.lower()` (ASCII case fold, which covers every keyword the code
compares against). -/
def pyLower (s : String) : String := ⟨s.data.map Char.toLower⟩

/-- The check `payload.lstrip().startswith(("{", "["))` — does the string, after
stripping leading whitespace, start with an opening brace or bracket? -/
def startsJsonLike (s : String) : Bool :=
  match s.data.dropWhile (fun c => c == ' ' || c == '\t' || c == '\n' || c == '\r') with
  | [] => false
  | c :: _ => c == Char.ofNat 123 || c == '['

/-- The second decode pass applied to a `content` payload: when it is a
string that looks like JSON, try `json.loads` (the `decode` oracle);
a decode error (`none`) leaves the string as is (`except: pass`). -/
def maybeDecode (decode : String → Option JValue) : JValue → JValue
  | .jstr s =>
    if startsJsonLike s then
      match decode s with
      | some v => v
      | none => .jstr s
    else .jstr s
  | v => v

/-! ## Canonical event normalizer — `WebSocketFriendSource._handle_one_event`,
lines 210–268: classify a decoded frame into zero or more canonical
online/offline tuples. -/

/-- A canonical event: the outcome of normalizing one payload item.
For `offline` the code discards the name (`uid, _ = _uid_and_name(p)`).
`name = some n` corresponds to a truthy extracted display name (only then
does the code write the name cache). -/
inductive CanonEv where
  | online (uid : String) (name : Option String)
  | offline (uid : String)
deriving DecidableEq

/-- Helper `_uid_and_name(p)`: the `(uid, name)` extraction, as raw decoded
values (`None` when absent / `p` not a dict). -/
def uidAndName : JValue → JValue × JValue
  | .jobj fs =>
    let uid := pyOr (pyGet fs "userId") (pyOr (pyGet fs "userid") (pyGet fs "id"))
    let user := pyOr (pyGet fs "user") (.jobj [])
    let fromUser := match user with
      | .jobj ufs => pyGet ufs "displayName"
      | _ => .jnull
    let name := pyOr fromUser
      (pyOr (pyGet fs "displayName") (pyOr (pyGet fs "username") (pyGet fs "name")))
    (uid, name)
  | _ => (.jnull, .jnull)

/-- The synonym set mapped to `online`. -/
def onlineTypes : List String :=
  ["friend-online", "friend_active", "friend-active", "user-online", "friend-location"]

/-- The synonym set mapped to `offline`. -/
def offlineTypes : List String :=
  ["friend-offline", "friend_offline", "user-offline"]

/-- Batch delivery: `payload if isinstance(payload, list) else [payload]`. -/
def itemsOf : JValue → List JValue
  | .jarr xs => xs
  | v => [v]

/-- The classification half of `_handle_one_event` (lines 210–268):
effective-type resolution with the one-level `notification` envelope
unwrap (including the second decode pass on a string `content`), then
uid/name extraction per payload item; items with no truthy uid are
dropped. -/
def normalizeEvent (decode : String → Option JValue) : JValue → List CanonEv
  | .jobj fs =>
    let evType := pyLower (pyOr (pyGet fs "type") (pyOr (pyGet fs "event") (.jstr ""))).pyStr
    let payload0 := maybeDecode decode (pyGet fs "content")
    -- outer "notification": re-read the inner type, and possibly descend
    -- into the (possibly re-encoded) inner content
    let innerAndPayload : Option String × JValue :=
      match payload0 with
      | .jobj pfs =>
        if evType == "notification" then
          let it := pyLower (pyOr (pyGet pfs "type") (.jstr "")).pyStr
          let ic := maybeDecode decode (pyGet pfs "content")
          let payload1 := if ic.isNull then JValue.jobj pfs
            else if ic.truthy then ic else JValue.jobj pfs
          (some it, payload1)
        else (none, .jobj pfs)
      | v => (none, v)
    let effectiveType :=
      match innerAndPayload.1 with
      | some it => if it == "" then evType else it
      | none => evType
    if onlineTypes.contains effectiveType then
      (itemsOf innerAndPayload.2).foldr (fun p acc =>
        let (uid, name) := uidAndName p
        if uid.truthy then
          CanonEv.online uid.pyStr (if name.truthy then some name.pyStr else none) :: acc
        else acc) []
    else if offlineTypes.contains effectiveType then
      (itemsOf innerAndPayload.2).foldr (fun p acc =>
        let (uid, _) := uidAndName p
        if uid.truthy then CanonEv.offline uid.pyStr :: acc else acc) []
    else []
  | _ => []

/-! ## Push-stream source state — `WebSocketFriendSource` -/

/-- The behaviour-relevant fields of `WebSocketConfig` (transport fields —
url, headers, ping settings, origin — configure the socket library and are
not part of the presence logic). -/
structure WSConfig where
  reconnectInitial : ℚ
  reconnectMax : ℚ
  jitterRatio : ℚ
  listFlushInterval : ℚ
  notifyRatePerMin : ℕ
  periodicRestResyncSec : ℚ

/-- The mutable presence state of `WebSocketFriendSource`:
`_prev_online_ids`, `_known_names`, `_last_list_flush`, `_pending_changes`,
`_notify_bucket`, `_next_resync_at`. -/
structure WSState where
  prevOnlineIds : Finset String
  knownNames : List (String × String)
  lastListFlush : ℚ
  pendingChanges : Bool
  bucket : TokenBucket
  nextResyncAt : ℚ
deriving DecidableEq

/-- Events the push source puts on the queue.  `online`/`offline` carry one
`{id, name}` dict; `online_now` carries a singleton `[{id, name}]` list, so
it is modelled by its one entry; `list_update` carries the full sorted
list. -/
inductive WSEv where
  | online (e : Entry)
  | offline (e : Entry)
  | onlineNow (e : Entry)
  | listUpdate (entries : List Entry)
  | heartbeat
  | error (msg : String)
deriving DecidableEq

/-- Tests whether the event is a `list_update` snapshot. -/
def WSEv.isListUpdate : WSEv → Bool
  | .listUpdate _ => true
  | _ => false

/-- The name fields carried by an event's payload. -/
def WSEv.nameFields : WSEv → List String
  | .online e => [e.name]
  | .offline e => [e.name]
  | .onlineNow e => [e.name]
  | .listUpdate es => es.map Entry.name
  | _ => []

/-- Lookup `self._known_names.get(k)` — `none` when the name was never learned. -/
def dictFind (m : List (String × String)) (k : String) : Option String :=
  (m.find? (fun p => p.1 == k)).map Prod.snd

/-- Lookup `self._known_names.get(k, dflt)`. -/
def dictGet (m : List (String × String)) (k dflt : String) : String :=
  (dictFind m k).getD dflt

/-- Assignment `self._known_names[k] = v`: latest assignment wins (new binding in
front; `dictFind` reads the front-most). -/
def dictSet (m : List (String × String)) (k v : String) : List (String × String) :=
  (k, v) :: m

/-- Method `WebSocketFriendSource._is_target(uid)`: `filter_ids is None` means
"track everyone". -/
def isTarget (filterIds : Option (Finset String)) (uid : String) : Bool :=
  match filterIds with
  | none => true
  | some f => uid ∈ f

/-- Method `WebSocketFriendSource._handle_online(uid)` at monotonic time `now`
(the time at which the rate limiter would be consulted).  Mirrors the
code: drop non-targets; drop ids already online; otherwise add the id,
mark pending, emit an `online` event, and — only when `emit_legacy` — also
an `online_now` notification gated by the token bucket. -/
def handleOnline (filterIds : Option (Finset String)) (emitLegacy : Bool) (now : ℚ)
    (st : WSState) (uid : String) : WSState × List WSEv :=
  if !isTarget filterIds uid then (st, [])
  else if uid ∈ st.prevOnlineIds then (st, [])
  else
    let name := dictGet st.knownNames uid uid
    let st1 := { st with prevOnlineIds := insert uid st.prevOnlineIds, pendingChanges := true }
    if emitLegacy then
      let r := st1.bucket.allow now 1
      ({ st1 with bucket := r.2 },
       .online ⟨uid, name⟩ :: if r.1 then [.onlineNow ⟨uid, name⟩] else [])
    else (st1, [.online ⟨uid, name⟩])

/-- Method `WebSocketFriendSource._handle_offline(uid)`. -/
def handleOffline (filterIds : Option (Finset String)) (st : WSState) (uid : String) :
    WSState × List WSEv :=
  if !isTarget filterIds uid then (st, [])
  else if uid ∈ st.prevOnlineIds then
    ({ st with prevOnlineIds := st.prevOnlineIds.erase uid, pendingChanges := true },
     [.offline ⟨uid, dictGet st.knownNames uid uid⟩])
  else (st, [])

/-- Method `WebSocketFriendSource._flush_list_update()` at time `now`: build the
id-sorted snapshot, emit it only when `emit_legacy`, stamp the flush time,
clear the pending flag. -/
def flushListUpdate (emitLegacy : Bool) (now : ℚ) (st : WSState) : WSState × List WSEv :=
  let friends := (st.prevOnlineIds.sort (· ≤ ·)).map
    (fun uid => Entry.mk uid (dictGet st.knownNames uid uid))
  ({ st with lastListFlush := now, pendingChanges := false },
   if emitLegacy then [.listUpdate friends] else [])

/-- Method `WebSocketFriendSource._resync_with_rest()` at time `now`; `fetch` is
the outcome of `self.vrc.fetch_online_friends(only_ids=...)`
(`Except.error` = raised exception, which the code logs and absorbs). -/
def resyncWithRest (emitLegacy : Bool) (now : ℚ) (st : WSState)
    (fetch : Except String (List Entry)) : WSState × List WSEv :=
  match fetch with
  | .error _ => (st, [])
  | .ok friends =>
    let restIds := idsOf friends
    if restIds = st.prevOnlineIds then (st, [])
    else
      let st1 := { st with
        prevOnlineIds := restIds,
        knownNames := friends.foldl (fun m f => dictSet m f.id f.name) st.knownNames }
      flushListUpdate emitLegacy now st1

/-- Application of one canonical event, as done inside the per-item loops
of `_handle_one_event`: for an online item, a truthy name is written to the
name cache *before* `_handle_online` runs (so the write happens even when
the id is filtered out or already online). -/
def applyCanon (filterIds : Option (Finset String)) (emitLegacy : Bool) (now : ℚ)
    (st : WSState) : CanonEv → WSState × List WSEv
  | .online uid name =>
    let st1 := match name with
      | some n => { st with knownNames := dictSet st.knownNames uid n }
      | none => st
    handleOnline filterIds emitLegacy now st1 uid
  | .offline uid => handleOffline filterIds st uid

/-- Apply the normalized events in order (the `for p in items` loops),
accumulating emissions in queue order. -/
def applyCanons (filterIds : Option (Finset String)) (emitLegacy : Bool) (now : ℚ) :
    WSState → List CanonEv → WSState × List WSEv
  | st, [] => (st, [])
  | st, ce :: ces =>
    let r := applyCanon filterIds emitLegacy now st ce
    let r2 := applyCanons filterIds emitLegacy now r.1 ces
    (r2.1, r.2 ++ r2.2)

/-- Method `WebSocketFriendSource._handle_one_event(data)` in full, at monotonic
time `now`: a non-dict frame returns immediately; otherwise the frame is
classified and applied, then an unconditional heartbeat, then the
interval-gated flush, then — when a REST client is configured (`hasVrc`)
and the resync timer has elapsed — the REST resync (with outcome `fetch`)
followed by re-arming the timer. -/
def handleOneEvent (cfg : WSConfig) (filterIds : Option (Finset String))
    (emitLegacy : Bool) (hasVrc : Bool) (decode : String → Option JValue)
    (st : WSState) (now : ℚ) (frame : JValue)
    (fetch : Except String (List Entry)) : WSState × List WSEv :=
  match frame with
  | .jobj _ =>
    let r1 := applyCanons filterIds emitLegacy now st (normalizeEvent decode frame)
    let evs2 := r1.2 ++ [WSEv.heartbeat]
    let r2 :=
      if r1.1.pendingChanges ∧ cfg.listFlushInterval ≤ now - r1.1.lastListFlush then
        let rf := flushListUpdate emitLegacy now r1.1
        (rf.1, evs2 ++ rf.2)
      else (r1.1, evs2)
    if hasVrc ∧ r2.1.nextResyncAt ≤ now then
      let r3 := resyncWithRest emitLegacy now r2.1 fetch
      ({ r3.1 with nextResyncAt := now + cfg.periodicRestResyncSec }, r2.2 ++ r3.2)
    else r2
  | _ => (st, [])

/-- A run of frames through `_handle_one_event` with no REST client
configured (`self.vrc is None`), so the resync branch never fires; each
step is a `(now, frame)` pair and each emitted event is tagged with its
step's time.  The unused fetch argument is passed as a dummy error. -/
def runHandleNoVrc (cfg : WSConfig) (filterIds : Option (Finset String))
    (emitLegacy : Bool) (decode : String → Option JValue) :
    WSState → List (ℚ × JValue) → WSState × List (ℚ × WSEv)
  | st, [] => (st, [])
  | st, (now, frame) :: rest =>
    let r := handleOneEvent cfg filterIds emitLegacy false decode st now frame (.error "")
    let r2 := runHandleNoVrc cfg filterIds emitLegacy decode r.1 rest
    (r2.1, r.2.map (fun e => (now, e)) ++ r2.2)

/-- The times at which `list_update` snapshots are emitted in a tagged run. -/
def listUpdateTimes (out : List (ℚ × WSEv)) : List ℚ :=
  (out.filter (fun p => p.2.isListUpdate)).map Prod.fst

/-! ## Reconnect loop — `WebSocketFriendSource.run`, lines 115–133

In `run`, a session that ends *without* an error raises
`ConnectionError("WebSocket closed normally; will reconnect")` and lands in
the same `except` branch as a failed connect, so the backoff update is the
same for successful and failed connections: wait
`min(backoff, reconnect_max)` (times a random jitter factor, which we leave
out: it never touches the `backoff` variable), then
`backoff = min(backoff * 2, reconnect_max)`.  `backoff` is initialised to
`reconnect_initial` once, before the loop. -/

/-- The backoff state threaded through the reconnect loop: one wait per
ended connection attempt.  The `outcomes` entries record whether each
attempt had connected successfully (`true`) before ending — the loop body
never reads this, which is exactly what claims about "reset on success"
are checked against. -/
def wsBackoffGo (maxB : ℚ) : ℚ → List Bool → List ℚ
  | _, [] => []
  | backoff, _ :: rest => min backoff maxB :: wsBackoffGo maxB (min (backoff * 2) maxB) rest

/-- The sequence of unjittered reconnect waits produced by `run` for a
given sequence of connection outcomes. -/
def wsBackoffWaits (initial maxB : ℚ) (outcomes : List Bool) : List ℚ :=
  wsBackoffGo maxB initial outcomes

/-! ## The concrete envelope frame of the spec's unwrapping example -/

/-- The JSON-encoded inner payload string (braces written as `\x7b`/`\x7d`):
`'\x7b"type":"friend-online","userId":"usr_9","displayName":"Nyx"\x7d'`. -/
def envelopeContent : String :=
  "\x7b\"type\":\"friend-online\",\"userId\":\"usr_9\",\"displayName\":\"Nyx\"\x7d"

/-- What `json.loads` yields on `envelopeContent`. -/
def envelopeInner : JValue :=
  .jobj [("type", .jstr "friend-online"), ("userId", .jstr "usr_9"),
         ("displayName", .jstr "Nyx")]

/-- The decoded outer push frame: a `notification` envelope whose `content`
is the still-encoded string. -/
def envelopeFrame : JValue :=
  .jobj [("type", .jstr "notification"), ("content", .jstr envelopeContent)]

/-- A concrete decode oracle behaving like `json.loads` on the one string
the example needs. -/
def envelopeDecode : String → Option JValue :=
  fun s => if s == envelopeContent then some envelopeInner else none

/-! ## Claim theorems -/

/-- C7: applying an online event for an id already in PresenceSet produces
no outbound event and leaves the whole tracker state (set, names, flush
stamp, pending flag, bucket) unchanged; symmetrically, an offline event
for an absent id is a strict no-op. -/
theorem tracker_idempotent (filterIds : Option (Finset String)) (emitLegacy : Bool)
    (now : ℚ) (st : WSState) (uid uid' : String)
    (hin : uid ∈ st.prevOnlineIds) (hout : uid' ∉ st.prevOnlineIds) :
    handleOnline filterIds emitLegacy now st uid = (st, []) ∧
    handleOffline filterIds st uid' = (st, []) := by
  refine ⟨?_, ?_⟩
  · simp only [handleOnline]
    split
    · rfl
    · simp [hin]
  · simp only [handleOffline]
    split
    · rfl
    · simp [hout]

/-- Witness for `tracker_idempotent` at a concrete tracker state. -/
theorem tracker_idempotent_witness :
    "usr_1" ∈ ({"usr_1"} : Finset String) ∧ "usr_2" ∉ ({"usr_1"} : Finset String) ∧
    handleOnline none true 10 ⟨{"usr_1"}, [], 0, false, ⟨20, 20, 60⟩, 300⟩ "usr_1" =
      (⟨{"usr_1"}, [], 0, false, ⟨20, 20, 60⟩, 300⟩, []) ∧
    handleOffline none ⟨{"usr_1"}, [], 0, false, ⟨20, 20, 60⟩, 300⟩ "usr_2" =
      (⟨{"usr_1"}, [], 0, false, ⟨20, 20, 60⟩, 300⟩, []) :=
  ⟨by decide, by decide,
   (tracker_idempotent none true 10 ⟨{"usr_1"}, [], 0, false, ⟨20, 20, 60⟩, 300⟩
     "usr_1" "usr_2" (by decide) (by decide)).1,
   (tracker_idempotent none true 10 ⟨{"usr_1"}, [], 0, false, ⟨20, 20, 60⟩, 300⟩
     "usr_1" "usr_2" (by decide) (by decide)).2⟩

/-- C1: the polling-path claim fails — `WatcherThread` takes no FilterSet
at all (`fetch_online_friends()` is called without `only_ids`, and no
per-id check exists), so with FilterSet `{"usr_1","usr_2"}` a pull
returning only `"usr_3"` still adds `"usr_3"` to the presence set and
emits an online notification for it.  (The push path does filter via
`_is_target`; and `app.py` even passes `filter_ids=` when constructing
`WatcherThread`, a keyword its `__init__` does not accept.) -/
theorem polling_path_ignores_filter :
    watcherStep true 30 ⟨{"usr_1", "usr_2"}, false, 1⟩ (.ok [⟨"usr_3", "Nyx"⟩]) =
      (⟨{"usr_3"}, false, 1⟩,
       [.onlineNow [⟨"usr_3", "Nyx"⟩], .listUpdate [⟨"usr_3", "Nyx"⟩], .heartbeat], 30) ∧
    "usr_3" ∈ (watcherStep true 30 ⟨{"usr_1", "usr_2"}, false, 1⟩
        (.ok [⟨"usr_3", "Nyx"⟩])).1.prevOnlineIds := by decide

/-- C2 counterexample: a second-iteration pull that removes `"usr_1"` and
`"usr_2"` (both drop out of the online set) emits *no* offline event of
any kind — the complete emission of the iteration is a single batched
`online_now`, the full `list_update` snapshot and a heartbeat.  The claim
demands an individual Offline event per removed id. -/
theorem polling_removed_ids_emit_nothing_cx :
    ({"usr_1", "usr_2"} : Finset String) \ idsOf [⟨"usr_3", "C"⟩] = {"usr_1", "usr_2"} ∧
    (watcherStep true 30 ⟨{"usr_1", "usr_2"}, false, 1⟩ (.ok [⟨"usr_3", "C"⟩])).2.1 =
      [.onlineNow [⟨"usr_3", "C"⟩], .listUpdate [⟨"usr_3", "C"⟩], .heartbeat] := by decide

/-- C2 amended: on every non-first polling iteration, the ids added
relative to the previous pull are reported in at most one *batched*
`online_now` event carrying exactly the added entries (none when nothing
was added); removed ids produce no events at all; and a full
`list_update` snapshot is emitted every iteration (the presence set is
replaced wholesale with the pull result). -/
theorem polling_diff_batched (firstRunNoNotify : Bool) (iv : ℕ) (st : WatcherState)
    (friends : List Entry) (h : st.firstRun = false) :
    (watcherStep firstRunNoNotify iv st (.ok friends)).2.1.countP WatcherEv.isOnlineNow ≤ 1 ∧
    (∀ fs, WatcherEv.onlineNow fs ∈ (watcherStep firstRunNoNotify iv st (.ok friends)).2.1 →
      fs = friends.filter (fun f => f.id ∈ idsOf friends \ st.prevOnlineIds) ∧ fs ≠ []) ∧
    WatcherEv.listUpdate friends ∈ (watcherStep firstRunNoNotify iv st (.ok friends)).2.1 ∧
    (watcherStep firstRunNoNotify iv st (.ok friends)).1.prevOnlineIds = idsOf friends := by
  have hstep : watcherStep firstRunNoNotify iv st (.ok friends) =
      (⟨idsOf friends, false, 1⟩,
       (if (friends.filter (fun f => f.id ∈ idsOf friends \ st.prevOnlineIds)).isEmpty then []
        else [WatcherEv.onlineNow
          (friends.filter (fun f => f.id ∈ idsOf friends \ st.prevOnlineIds))])
         ++ [WatcherEv.listUpdate friends, WatcherEv.heartbeat], iv) := by
    simp [watcherStep, h]
  rw [hstep]
  by_cases hne : (friends.filter (fun f => f.id ∈ idsOf friends \ st.prevOnlineIds)).isEmpty
  · rw [if_pos hne]
    refine ⟨by simp [List.countP_cons, WatcherEv.isOnlineNow], ?_, by simp, rfl⟩
    intro fs hfs
    simp [WatcherEv.isOnlineNow, List.mem_cons] at hfs
  · rw [if_neg hne]
    refine ⟨by simp [List.countP_cons, WatcherEv.isOnlineNow], ?_, by simp, rfl⟩
    intro fs hfs
    simp only [List.cons_append, List.nil_append, List.mem_cons] at hfs
    rcases hfs with h1 | h1 | h1 | h1
    · obtain rfl := (WatcherEv.onlineNow.injEq _ _).mp h1
      exact ⟨rfl, fun hc => hne (by rw [hc]; rfl)⟩
    all_goals simp at h1

/-- Witness for `polling_diff_batched`: a non-first iteration whose pull
adds `"usr_2"` to a baseline of `{"usr_1"}`. -/
theorem polling_diff_batched_witness :
    (⟨{"usr_1"}, false, 1⟩ : WatcherState).firstRun = false ∧
    ((watcherStep true 30 ⟨{"usr_1"}, false, 1⟩ (.ok [⟨"usr_2", "B"⟩])).2.1.countP
        WatcherEv.isOnlineNow ≤ 1 ∧
     (∀ fs, WatcherEv.onlineNow fs ∈
        (watcherStep true 30 ⟨{"usr_1"}, false, 1⟩ (.ok [⟨"usr_2", "B"⟩])).2.1 →
       fs = [Entry.mk "usr_2" "B"].filter
          (fun f => f.id ∈ idsOf [⟨"usr_2", "B"⟩] \
            (⟨{"usr_1"}, false, 1⟩ : WatcherState).prevOnlineIds) ∧ fs ≠ []) ∧
     WatcherEv.listUpdate [⟨"usr_2", "B"⟩] ∈
        (watcherStep true 30 ⟨{"usr_1"}, false, 1⟩ (.ok [⟨"usr_2", "B"⟩])).2.1 ∧
     (watcherStep true 30 ⟨{"usr_1"}, false, 1⟩
        (.ok [⟨"usr_2", "B"⟩])).1.prevOnlineIds = idsOf [⟨"usr_2", "B"⟩]) :=
  ⟨rfl, polling_diff_batched true 30 ⟨{"usr_1"}, false, 1⟩ [⟨"usr_2", "B"⟩] rfl⟩

/-- C6 counterexample: with the polling interval configured to 30 s, a
pull failure on a state whose backoff is fresh (`_backoff = 1`, as after
any success) is retried after `min(1, 60) = 1` second with the backoff
doubled — not after the fixed 30-second interval the claim requires. -/
theorem pull_failure_uses_backoff_cx :
    watcherStep true 30 ⟨{"usr_1"}, false, 1⟩ (.error "watch failed") =
      (⟨{"usr_1"}, false, 2⟩, [.error "watch failed"], 1) ∧ (1 : ℕ) ≠ 30 := by decide

/-- C6 amended: on a polling pull failure an `error` event (and nothing
else) is emitted, PresenceSet and the first-run flag are untouched, and
the next pull is rescheduled after `min(backoff, 60)` seconds with the
backoff doubled (capped at 60) — an exponential backoff rather than the
fixed interval; the backoff resets to 1 on any successful pull.  On the
resync path a collaborator error leaves the whole tracker state unchanged
and emits nothing (the next attempt is re-armed by the caller
regardless). -/
theorem pull_failure_contract (firstRunNoNotify : Bool) (iv : ℕ) (st : WatcherState)
    (e : String) (emitLegacy : Bool) (now : ℚ) (wst : WSState) (e' : String)
    (friends : List Entry) :
    (watcherStep firstRunNoNotify iv st (.error e)).1.prevOnlineIds = st.prevOnlineIds ∧
    (watcherStep firstRunNoNotify iv st (.error e)).1.firstRun = st.firstRun ∧
    (watcherStep firstRunNoNotify iv st (.error e)).2.1 = [.error e] ∧
    (watcherStep firstRunNoNotify iv st (.error e)).2.2 = min st.backoff 60 ∧
    (watcherStep firstRunNoNotify iv st (.error e)).1.backoff = min (st.backoff * 2) 60 ∧
    (watcherStep firstRunNoNotify iv st (.ok friends)).1.backoff = 1 ∧
    resyncWithRest emitLegacy now wst (.error e') = (wst, []) :=
  ⟨rfl, rfl, rfl, rfl, rfl, rfl, rfl⟩

/-- C4 counterexample: a bucket of capacity 20 whose window ends at
monotonic time 60 grants 20 notifications at `t = 59`; the call at
`t = 60` hard-resets the window and grants 20 more — so the rolling
60-second window `[59, 119)` contains 40 granted units, twice the
configured capacity. -/
theorem bucket_rolling_window_cx :
    (TokenBucket.runAllow ⟨20, 20, 60⟩ [(59, 20), (60, 20)]).2 =
      [(59, 20, true), (60, 20, true)] ∧
    grantedBetween 59 119 (TokenBucket.runAllow ⟨20, 20, 60⟩ [(59, 20), (60, 20)]).2 = 40 ∧
    (119 : ℚ) - 59 = 60 ∧ 20 < 40 :=
  ⟨by decide, by decide, by norm_num, by decide⟩

/-- Helper: `allow` before the window boundary with enough tokens grants
and decrements. -/
theorem TokenBucket.allow_grant (b : TokenBucket) (now : ℚ) (n : ℕ)
    (h1 : ¬ b.resetAt ≤ now) (h2 : n ≤ b.tokens) :
    b.allow now n = (true, ⟨b.capacity, b.tokens - n, b.resetAt⟩) := by
  simp [TokenBucket.allow, h1, h2]

/-- Helper: `allow` before the window boundary with too few tokens denies
and changes nothing. -/
theorem TokenBucket.allow_deny (b : TokenBucket) (now : ℚ) (n : ℕ)
    (h1 : ¬ b.resetAt ≤ now) (h2 : ¬ n ≤ b.tokens) :
    b.allow now n = (false, b) := by
  simp [TokenBucket.allow, h1, h2]

/-- Helper: when every call of a sequence falls strictly before the
window boundary (so no reset occurs), the total granted never exceeds the
tokens on hand at the start. -/
theorem runAllow_granted_le_tokens (calls : List (ℚ × ℕ)) :
    ∀ b : TokenBucket, (∀ c ∈ calls, c.1 < b.resetAt) →
      grantedTotal (b.runAllow calls).2 ≤ b.tokens := by
  induction calls with
  | nil => intro b _; simp [TokenBucket.runAllow, grantedTotal]
  | cons c rest ih =>
    intro b hwin
    obtain ⟨now, n⟩ := c
    have hreset : ¬ (b.resetAt ≤ now) := not_le.mpr (hwin _ (List.mem_cons_self _ _))
    by_cases hn : n ≤ b.tokens
    · have hrest := ih ⟨b.capacity, b.tokens - n, b.resetAt⟩
        (fun c hc => hwin c (List.mem_cons_of_mem _ hc))
      simp only [TokenBucket.runAllow, TokenBucket.allow_grant b now n hreset hn,
        grantedTotal]
      rw [if_pos trivial]
      have hd : ({ capacity := b.capacity, tokens := b.tokens - n, resetAt := b.resetAt } :
          TokenBucket).tokens = b.tokens - n := rfl
      rw [hd] at hrest
      omega
    · have hrest := ih b (fun c hc => hwin c (List.mem_cons_of_mem _ hc))
      simp only [TokenBucket.runAllow, TokenBucket.allow_deny b now n hreset hn,
        grantedTotal]
      simpa using hrest

/-- C4 amended: the bucket is a *fixed-window* limiter — within one window
(no call reaches the boundary, so no reset occurs) the total `n` over
granted calls never exceeds the tokens available at the window start
(which is the capacity right after a refill); a rolling 60-second window
straddling a hard reset can see up to twice the capacity
(`bucket_rolling_window_cx`).  A denied call's only effect on the bucket
is the possible window reset itself. -/
theorem bucket_fixed_window (b : TokenBucket) (calls : List (ℚ × ℕ)) (now : ℚ) (n : ℕ)
    (hwin : ∀ c ∈ calls, c.1 < b.resetAt)
    (hdeny : (b.allow now n).1 = false) :
    grantedTotal (b.runAllow calls).2 ≤ b.tokens ∧
    (b.allow now n).2 = if b.resetAt ≤ now then
      { b with tokens := b.capacity, resetAt := now + 60 } else b := by
  refine ⟨runAllow_granted_le_tokens calls b hwin, ?_⟩
  by_cases hr : b.resetAt ≤ now
  · rw [if_pos hr]
    by_cases hn : n ≤ b.capacity
    · exfalso; simp [TokenBucket.allow, hr, hn] at hdeny
    · simp [TokenBucket.allow, hr, hn]
  · rw [if_neg hr]
    by_cases hn : n ≤ b.tokens
    · exfalso; simp [TokenBucket.allow, hr, hn] at hdeny
    · simp [TokenBucket.allow, hr, hn]

/-- Witness for `bucket_fixed_window`: capacity 20, 5 tokens left, window
ending at 60; calls at t=1 (grant 2) and t=2 (deny 10), and a denied
probe at t=3. -/
theorem bucket_fixed_window_witness :
    (∀ c ∈ [((1 : ℚ), 2), ((2 : ℚ), 10)], c.1 < (⟨20, 5, 60⟩ : TokenBucket).resetAt) ∧
    ((⟨20, 5, 60⟩ : TokenBucket).allow 3 10).1 = false ∧
    (grantedTotal ((⟨20, 5, 60⟩ : TokenBucket).runAllow [(1, 2), (2, 10)]).2 ≤
        (⟨20, 5, 60⟩ : TokenBucket).tokens ∧
     ((⟨20, 5, 60⟩ : TokenBucket).allow 3 10).2 =
       if (⟨20, 5, 60⟩ : TokenBucket).resetAt ≤ 3 then
         { (⟨20, 5, 60⟩ : TokenBucket) with
           tokens := (⟨20, 5, 60⟩ : TokenBucket).capacity, resetAt := 3 + 60 }
       else ⟨20, 5, 60⟩) :=
  ⟨by decide, by decide,
   bucket_fixed_window ⟨20, 5, 60⟩ [(1, 2), (2, 10)] 3 10 (by decide) (by decide)⟩

/-- C5 counterexample: with `reconnect_initial = 3` and
`reconnect_max = 300`, a run whose second connection attempt succeeds
(and later disconnects) still waits 12 — not the initial 3 — before the
third reconnect: nothing in `run` resets the backoff on a successful
handshake. -/
theorem backoff_not_reset_on_success_cx :
    wsBackoffWaits 3 300 [false, true, false] = [3, 6, 12] ∧ (12 : ℚ) ≠ 3 := by
  refine ⟨?_, by norm_num⟩
  norm_num [wsBackoffWaits, wsBackoffGo, min_def]

/-- Helper: one doubling step commutes with the capped-exponential form. -/
theorem min_shift (b maxB : ℚ) (hb : 0 ≤ b) (hm : 0 ≤ maxB) (k : ℕ) :
    min (min (b * 2) maxB * 2 ^ k) maxB = min (b * 2 ^ (k + 1)) maxB := by
  rcases le_total (b * 2) maxB with h | h
  · rw [min_eq_left h, pow_succ]
    ring_nf
  · have h1 : (1 : ℚ) ≤ 2 ^ k := one_le_pow₀ (by norm_num)
    have h2 : maxB ≤ maxB * 2 ^ k := le_mul_of_one_le_right hm h1
    have hx : maxB ≤ b * 2 ^ (k + 1) := by
      have hbb : b * 2 ≤ b * 2 * 2 ^ k := le_mul_of_one_le_right (by linarith) h1
      calc maxB ≤ b * 2 := h
        _ ≤ b * 2 * 2 ^ k := hbb
        _ = b * 2 ^ (k + 1) := by ring
    rw [min_eq_right h, min_eq_right h2, min_eq_right hx]

/-- Helper: the reconnect loop's wait sequence in closed form, for any
running backoff value. -/
theorem wsBackoffGo_formula (maxB : ℚ) (hm : 0 ≤ maxB) (outcomes : List Bool) :
    ∀ b : ℚ, 0 ≤ b → wsBackoffGo maxB b outcomes =
      (List.range outcomes.length).map (fun k => min (b * 2 ^ k) maxB) := by
  induction outcomes with
  | nil => intro b _; simp [wsBackoffGo]
  | cons o rest ih =>
    intro b hb
    rw [wsBackoffGo, List.length_cons, List.range_succ_eq_map, List.map_cons,
      List.map_map, ih (min (b * 2) maxB) (le_min (by positivity) hm)]
    congr 1
    · simp
    · refine List.map_congr_left ?_
      intro k _
      simpa using min_shift b maxB hb hm k

/-- C5 amended: `run` never resets the ReconnectState on a successful
connection — the `k`-th unjittered wait is `min(initial · 2^k, max)`
regardless of which attempts succeeded, i.e. the wait sequence depends
only on how many connections have ended, monotone non-decreasing and
capped at `max`. -/
theorem backoff_never_reset (initial maxB : ℚ) (outcomes : List Bool)
    (hi : 0 ≤ initial) (hm : 0 ≤ maxB) :
    wsBackoffWaits initial maxB outcomes =
      (List.range outcomes.length).map (fun k => min (initial * 2 ^ k) maxB) :=
  wsBackoffGo_formula maxB hm outcomes initial hi

/-- Witness for `backoff_never_reset` at the configured values 3/300. -/
theorem backoff_never_reset_witness :
    (0 : ℚ) ≤ 3 ∧ (0 : ℚ) ≤ 300 ∧
    wsBackoffWaits 3 300 [false, true] =
      (List.range [false, true].length).map (fun k => min ((3 : ℚ) * 2 ^ k) 300) :=
  ⟨by decide, by decide, backoff_never_reset 3 300 [false, true] (by decide) (by decide)⟩


/-- C3 counterexample: with `list_flush_interval = 5` and `emit_legacy`,
one `_handle_one_event` call at monotonic time 100 on a tracker with a
pending change (last flush at 0) first flushes a `list_update` on the
interval-gated path, then — the resync timer having elapsed and the REST
pull differing from the set — `_resync_with_rest` calls
`_flush_list_update()` again with no interval check: two `list_update`
snapshots are emitted at the same instant, 0 < 5 seconds apart. -/
theorem resync_flush_spacing_cx :
    (handleOneEvent ⟨3, 300, 1/5, 5, 20, 300⟩ none true true (fun _ => none)
        ⟨{"usr_1"}, [], 0, true, ⟨20, 20, 60⟩, 50⟩ 100
        (.jobj [("type", .jstr "ping")]) (.ok [⟨"usr_2", "B"⟩])).2.countP WSEv.isListUpdate = 2
    ∧ (0 : ℚ) < 5 := by
  refine ⟨?_, by norm_num⟩
  have hnorm : normalizeEvent (fun _ => none) (JValue.jobj [("type", JValue.jstr "ping")]) =
      ([] : List CanonEv) := by decide
  simp [handleOneEvent, hnorm, applyCanons, flushListUpdate, resyncWithRest, idsOf,
    WSEv.isListUpdate, List.countP_cons,
    show (5 : ℚ) ≤ 100 from by norm_num,
    show (50 : ℚ) ≤ 100 from by norm_num,
    show ¬ (({"usr_2"} : Finset String) = {"usr_1"}) from by decide]

/-- Helper: `_handle_online` never touches the flush stamp and never
emits a snapshot. -/
theorem handleOnline_no_flush (f : Option (Finset String)) (el : Bool) (now : ℚ)
    (st : WSState) (uid : String) :
    (handleOnline f el now st uid).1.lastListFlush = st.lastListFlush ∧
    ∀ e ∈ (handleOnline f el now st uid).2, e.isListUpdate = false := by
  unfold handleOnline
  split
  · exact ⟨rfl, by simp⟩
  · split
    · exact ⟨rfl, by simp⟩
    · split
      · refine ⟨rfl, ?_⟩
        intro e he
        rcases List.mem_cons.mp he with h | h
        · subst h; rfl
        · split at h
          · rcases List.mem_singleton.mp h with rfl; rfl
          · simp at h
      · exact ⟨rfl, by simp [WSEv.isListUpdate]⟩

/-- Helper: `_handle_offline` never touches the flush stamp and never
emits a snapshot. -/
theorem handleOffline_no_flush (f : Option (Finset String)) (st : WSState) (uid : String) :
    (handleOffline f st uid).1.lastListFlush = st.lastListFlush ∧
    ∀ e ∈ (handleOffline f st uid).2, e.isListUpdate = false := by
  unfold handleOffline
  split
  · exact ⟨rfl, by simp⟩
  · split
    · exact ⟨rfl, by simp [WSEv.isListUpdate]⟩
    · exact ⟨rfl, by simp⟩

/-- Helper: one canonical event application never flushes. -/
theorem applyCanon_no_flush (f : Option (Finset String)) (el : Bool) (now : ℚ)
    (st : WSState) (ce : CanonEv) :
    (applyCanon f el now st ce).1.lastListFlush = st.lastListFlush ∧
    ∀ e ∈ (applyCanon f el now st ce).2, e.isListUpdate = false := by
  cases ce with
  | online uid name =>
    cases name with
    | none => exact handleOnline_no_flush f el now st uid
    | some n => exact handleOnline_no_flush f el now _ uid
  | offline uid => exact handleOffline_no_flush f st uid

/-- Helper: a whole batch of canonical events never flushes. -/
theorem applyCanons_no_flush (f : Option (Finset String)) (el : Bool) (now : ℚ)
    (ces : List CanonEv) : ∀ st : WSState,
    (applyCanons f el now st ces).1.lastListFlush = st.lastListFlush ∧
    ∀ e ∈ (applyCanons f el now st ces).2, e.isListUpdate = false := by
  induction ces with
  | nil => intro st; exact ⟨rfl, by simp [applyCanons]⟩
  | cons ce ces ih =>
    intro st
    obtain ⟨h1, h2⟩ := applyCanon_no_flush f el now st ce
    obtain ⟨h3, h4⟩ := ih (applyCanon f el now st ce).1
    refine ⟨by rw [applyCanons]; exact h3.trans h1, ?_⟩
    intro e he
    rw [applyCanons] at he
    rcases List.mem_append.mp he with h | h
    · exact h2 e h
    · exact h4 e h

/-- Helper: the snapshot times contributed by one step's tagged events. -/
theorem listUpdateTimes_tag (now : ℚ) (evs : List WSEv) :
    listUpdateTimes (evs.map (fun e => (now, e))) =
      (evs.filter WSEv.isListUpdate).map (fun _ => now) := by
  induction evs with
  | nil => rfl
  | cons e evs ih =>
    by_cases he : e.isListUpdate = true <;>
      simp [listUpdateTimes, List.filter_cons, he] at ih ⊢ <;> exact ih

/-- Helper: snapshot times split over concatenation. -/
theorem listUpdateTimes_append (a b : List (ℚ × WSEv)) :
    listUpdateTimes (a ++ b) = listUpdateTimes a ++ listUpdateTimes b := by
  simp [listUpdateTimes, List.filter_append]

/-- Helper: one `_handle_one_event` step with no REST client either leaves
the flush stamp alone and emits no snapshot, or flushes: the stamp becomes
`now`, the interval had elapsed since the previous stamp, and at most one
snapshot is emitted. -/
theorem handleOneEvent_noVrc (cfg : WSConfig) (f : Option (Finset String)) (el : Bool)
    (decode : String → Option JValue) (st : WSState) (now : ℚ) (frame : JValue)
    (fetch : Except String (List Entry)) :
    ((handleOneEvent cfg f el false decode st now frame fetch).1.lastListFlush
        = st.lastListFlush ∧
     (handleOneEvent cfg f el false decode st now frame fetch).2.filter WSEv.isListUpdate = [])
    ∨ ((handleOneEvent cfg f el false decode st now frame fetch).1.lastListFlush = now ∧
       st.lastListFlush + cfg.listFlushInterval ≤ now ∧
       ((handleOneEvent cfg f el false decode st now frame fetch).2.filter
          WSEv.isListUpdate).length ≤ 1) := by
  obtain ⟨hlf, hnofl⟩ := applyCanons_no_flush f el now (normalizeEvent decode frame) st
  have hfilter1 : (applyCanons f el now st (normalizeEvent decode frame)).2.filter
      WSEv.isListUpdate = [] :=
    List.filter_eq_nil_iff.mpr (fun e he => by simp [hnofl e he])
  cases frame with
  | jobj fs =>
    simp only [handleOneEvent]
    split
    · rename_i hcond
      split
      · rename_i hvrc
        exact absurd hvrc.1 (by decide)
      · right
        refine ⟨rfl, ?_, ?_⟩
        · have h2 := hcond.2
          rw [hlf] at h2
          linarith
        · rw [List.filter_append, List.filter_append, hfilter1]
          simp only [List.nil_append]
          rw [show (([WSEv.heartbeat] : List WSEv).filter WSEv.isListUpdate) = [] from rfl]
          simp only [List.nil_append]
          unfold flushListUpdate
          by_cases hel : el = true
          · simp [hel, WSEv.isListUpdate]
          · simp [hel]
    · split
      · rename_i hvrc
        exact absurd hvrc.1 (by decide)
      · left
        refine ⟨hlf, ?_⟩
        rw [List.filter_append, hfilter1]
        simp [WSEv.isListUpdate]
  | jnull => exact Or.inl ⟨rfl, rfl⟩
  | jbool b => exact Or.inl ⟨rfl, rfl⟩
  | jnum n => exact Or.inl ⟨rfl, rfl⟩
  | jstr s => exact Or.inl ⟨rfl, rfl⟩
  | jarr xs => exact Or.inl ⟨rfl, rfl⟩

/-- Helper: over a whole run without resync, the snapshot times form a
chain with gaps of at least the flush interval, and every snapshot time is
at least one interval after the initial flush stamp. -/
theorem runHandleNoVrc_chain_aux (cfg : WSConfig) (f : Option (Finset String)) (el : Bool)
    (decode : String → Option JValue) (hint : 0 ≤ cfg.listFlushInterval)
    (steps : List (ℚ × JValue)) : ∀ st : WSState,
    List.Chain' (fun a b => a + cfg.listFlushInterval ≤ b)
      (listUpdateTimes (runHandleNoVrc cfg f el decode st steps).2) ∧
    ∀ t ∈ listUpdateTimes (runHandleNoVrc cfg f el decode st steps).2,
      st.lastListFlush + cfg.listFlushInterval ≤ t := by
  induction steps with
  | nil =>
    intro st
    exact ⟨List.chain'_nil, by simp [runHandleNoVrc, listUpdateTimes]⟩
  | cons step rest ih =>
    intro st
    obtain ⟨now, frame⟩ := step
    obtain ⟨hchain, hbound⟩ :=
      ih (handleOneEvent cfg f el false decode st now frame (.error "")).1
    have hout : (runHandleNoVrc cfg f el decode st ((now, frame) :: rest)).2 =
        (handleOneEvent cfg f el false decode st now frame (.error "")).2.map
          (fun e => (now, e)) ++
        (runHandleNoVrc cfg f el decode
          (handleOneEvent cfg f el false decode st now frame (.error "")).1 rest).2 := rfl
    rw [hout, listUpdateTimes_append, listUpdateTimes_tag]
    rcases handleOneEvent_noVrc cfg f el decode st now frame (.error "") with
      ⟨hlf, hfl⟩ | ⟨hlf, hle, hlen⟩
    · rw [hfl]
      simp only [List.map_nil, List.nil_append]
      exact ⟨hchain, fun t ht => hlf ▸ hbound t ht⟩
    · rcases hfilter : (handleOneEvent cfg f el false decode st now frame
        (.error "")).2.filter WSEv.isListUpdate with _ | ⟨e, tl⟩
      · simp only [List.map_nil, List.nil_append]
        refine ⟨hchain, fun t ht => ?_⟩
        have h1 := hbound t ht
        rw [hlf] at h1
        have h2 : st.lastListFlush ≤ now := by linarith
        linarith
      · have htl : tl = [] := by
          rw [hfilter] at hlen
          simpa using hlen
        subst htl
        simp only [List.map_cons, List.map_nil, List.cons_append, List.nil_append]
        constructor
        · refine List.chain'_cons'.mpr ⟨?_, hchain⟩
          intro b hb
          have hmb := List.mem_of_mem_head? hb
          have h1 := hbound b hmb
          rw [hlf] at h1
          exact h1
        · intro t ht
          rcases List.mem_cons.mp ht with rfl | ht
          · exact hle
          · have h1 := hbound t ht
            rw [hlf] at h1
            have h2 : st.lastListFlush ≤ now := by linarith
            linarith

/-- C3 amended: on the frame-handling flush path (no REST client, so the
resync branch never runs) the spacing does hold: over any run of frames,
any two consecutive `list_update` snapshots are at least
`list_flush_interval` apart, because that path flushes only when a pending
change exists and the interval has elapsed, and flushing stamps the time
and clears the pending flag.  The resync path breaks this
(`resync_flush_spacing_cx`): `_resync_with_rest` flushes with no interval
check whenever the pulled set differs. -/
theorem flush_spacing_no_resync (cfg : WSConfig) (f : Option (Finset String)) (el : Bool)
    (decode : String → Option JValue) (st : WSState) (steps : List (ℚ × JValue))
    (hint : 0 ≤ cfg.listFlushInterval) :
    List.Chain' (fun a b => a + cfg.listFlushInterval ≤ b)
      (listUpdateTimes (runHandleNoVrc cfg f el decode st steps).2) :=
  (runHandleNoVrc_chain_aux cfg f el decode hint steps st).1

/-- Witness for `flush_spacing_no_resync`: a two-frame run, the first
flushing at t=10, the second (t=12) inside the 5-second window. -/
theorem flush_spacing_no_resync_witness :
    (0 : ℚ) ≤ (⟨3, 300, 1/5, 5, 20, 300⟩ : WSConfig).listFlushInterval ∧
    List.Chain' (fun a b => a + (⟨3, 300, 1/5, 5, 20, 300⟩ : WSConfig).listFlushInterval ≤ b)
      (listUpdateTimes (runHandleNoVrc ⟨3, 300, 1/5, 5, 20, 300⟩ none true (fun _ => none)
        ⟨{"usr_1"}, [], 0, true, ⟨20, 20, 60⟩, 300⟩
        [(10, .jobj [("type", .jstr "ping")]), (12, .jobj [("type", .jstr "ping")])]).2) :=
  ⟨by decide, flush_spacing_no_resync ⟨3, 300, 1/5, 5, 20, 300⟩ none true (fun _ => none)
    ⟨{"usr_1"}, [], 0, true, ⟨20, 20, 60⟩, 300⟩
    [(10, .jobj [("type", .jstr "ping")]), (12, .jobj [("type", .jstr "ping")])] (by decide)⟩

/-- C8: on the doubly-encoded notification envelope, for any decode
behaving like `json.loads` on the inner string, the Normalizer yields
exactly one online event with id `usr_9` and name `Nyx`. -/
theorem normalizer_envelope_unwrap (decode : String → Option JValue)
    (h : decode envelopeContent = some envelopeInner) :
    normalizeEvent decode envelopeFrame = [CanonEv.online "usr_9" (some "Nyx")] := by
  have h1 : maybeDecode decode (JValue.jstr envelopeContent) = envelopeInner := by
    simp only [maybeDecode]
    rw [if_pos (show startsJsonLike envelopeContent = true by decide), h]
  simp only [normalizeEvent, envelopeFrame]
  rw [show pyGet [("type", JValue.jstr "notification"),
      ("content", JValue.jstr envelopeContent)] "content" = JValue.jstr envelopeContent from rfl,
    h1]
  rfl

/-- Witness for `normalizer_envelope_unwrap` with a concrete decoder. -/
theorem normalizer_envelope_unwrap_witness :
    envelopeDecode envelopeContent = some envelopeInner ∧
    normalizeEvent envelopeDecode envelopeFrame = [CanonEv.online "usr_9" (some "Nyx")] :=
  ⟨rfl, normalizer_envelope_unwrap envelopeDecode rfl⟩

/-- Helper: `idsOf` unfolds over cons. -/
theorem idsOf_cons (f : Entry) (l : List Entry) :
    idsOf (f :: l) = insert f.id (idsOf l) := rfl

/-- Helper: membership in the pulled id set. -/
theorem mem_idsOf (l : List Entry) (x : String) :
    x ∈ idsOf l ↔ x ∈ l.map Entry.id := by
  induction l with
  | nil => simp [idsOf]
  | cons f l ih =>
    rw [idsOf_cons]
    simp only [Finset.mem_insert, ih, List.map_cons, List.mem_cons]

/-- Helper: removing the old baseline from a one-element enlargement
leaves exactly the new element. -/
theorem insert_sdiff_self_eq (x : String) (s : Finset String) (hx : x ∉ s) :
    insert x s \ s = {x} := by
  ext a
  simp only [Finset.mem_sdiff, Finset.mem_insert, Finset.mem_singleton]
  constructor
  · rintro ⟨h1 | h1, h2⟩
    · exact h1
    · exact absurd h1 h2
  · rintro rfl
    exact ⟨Or.inl rfl, hx⟩

/-- Helper: filtering a duplicate-free list for one key value yields the
unique matching element. -/
theorem filter_eq_singleton_of_nodup {α β : Type} [DecidableEq β] (f : α → β)
    (l : List α) (y : β) (hnd : (l.map f).Nodup) (hy : y ∈ l.map f) :
    ∃ a, l.filter (fun b => f b = y) = [a] ∧ f a = y := by
  induction l with
  | nil => simp at hy
  | cons b l ih =>
    simp only [List.map_cons, List.nodup_cons] at hnd
    by_cases hb : f b = y
    · refine ⟨b, ?_, hb⟩
      have hnone : l.filter (fun c => f c = y) = [] := by
        refine List.filter_eq_nil_iff.mpr ?_
        intro c hc
        simp only [decide_eq_true_eq]
        intro hcy
        exact hnd.1 (hb ▸ hcy ▸ List.mem_map_of_mem f hc)
      simp [List.filter_cons, hb, hnone]
    · have hy2 : y ∈ l.map f := by
        rcases List.mem_cons.mp hy with h | h
        · exact absurd h.symm hb
        · exact h
      obtain ⟨a, ha1, ha2⟩ := ih hnd.2 hy2
      exact ⟨a, by simp [List.filter_cons, hb, ha1], ha2⟩

/-- C9: with the shipped `first_run_no_notify = True`, the first polling
iteration emits no online notification whatever the pull returned (only
the `list_update` baseline and a heartbeat); and a later pull whose id set
adds exactly one new id `x` emits exactly one online notification, whose
payload is the single entry for `x`. -/
theorem first_run_suppression (iv iv' : ℕ) (st st' : WatcherState)
    (friends friends' : List Entry) (x : String)
    (h1 : st.firstRun = true)
    (h2 : st'.firstRun = false)
    (hids : idsOf friends' = insert x st'.prevOnlineIds)
    (hx : x ∉ st'.prevOnlineIds)
    (hnodup : (friends'.map Entry.id).Nodup) :
    (watcherStep true iv st (.ok friends)).2.1 =
      [WatcherEv.listUpdate friends, WatcherEv.heartbeat] ∧
    (watcherStep true iv' st' (.ok friends')).2.1.countP WatcherEv.isOnlineNow = 1 ∧
    (∀ fs, WatcherEv.onlineNow fs ∈ (watcherStep true iv' st' (.ok friends')).2.1 →
      ∃ e, fs = [e] ∧ e.id = x) := by
  have hxm : x ∈ friends'.map Entry.id := by
    rw [← mem_idsOf, hids]
    exact Finset.mem_insert_self x _
  obtain ⟨e, he1, he2⟩ := filter_eq_singleton_of_nodup Entry.id friends' x hnodup hxm
  have hsd : idsOf friends' \ st'.prevOnlineIds = {x} := by
    rw [hids]
    exact insert_sdiff_self_eq x _ hx
  have hfilter : friends'.filter (fun f => f.id ∈ idsOf friends' \ st'.prevOnlineIds) = [e] := by
    rw [← he1]
    refine List.filter_congr ?_
    intro f _
    rw [hsd]
    simp
  have hev : (watcherStep true iv' st' (.ok friends')).2.1 =
      [WatcherEv.onlineNow [e], WatcherEv.listUpdate friends', WatcherEv.heartbeat] := by
    simp only [watcherStep]
    rw [h2, hfilter]
    rfl
  refine ⟨?_, ?_, ?_⟩
  · simp only [watcherStep]
    rw [h1]
    rfl
  · rw [hev]
    simp [List.countP_cons, WatcherEv.isOnlineNow]
  · intro fs hfs
    rw [hev] at hfs
    simp only [List.mem_cons] at hfs
    rcases hfs with h | h | h | h
    · obtain rfl := (WatcherEv.onlineNow.injEq _ _).mp h
      exact ⟨e, rfl, he2⟩
    all_goals simp at h

/-- Witness for `first_run_suppression`: a first pull of two entries, then
a later pull of three entries over baseline `{"usr_1","usr_2"}` adding
exactly `"usr_3"`. -/
theorem first_run_suppression_witness :
    (⟨∅, true, 1⟩ : WatcherState).firstRun = true ∧
    (⟨{"usr_1", "usr_2"}, false, 1⟩ : WatcherState).firstRun = false ∧
    idsOf [⟨"usr_1", "A"⟩, ⟨"usr_2", "B"⟩, ⟨"usr_3", "C"⟩] =
      insert "usr_3" (⟨{"usr_1", "usr_2"}, false, 1⟩ : WatcherState).prevOnlineIds ∧
    "usr_3" ∉ (⟨{"usr_1", "usr_2"}, false, 1⟩ : WatcherState).prevOnlineIds ∧
    (([⟨"usr_1", "A"⟩, ⟨"usr_2", "B"⟩, ⟨"usr_3", "C"⟩] : List Entry).map Entry.id).Nodup ∧
    (watcherStep true 30 ⟨∅, true, 1⟩ (.ok [⟨"usr_1", "A"⟩, ⟨"usr_2", "B"⟩])).2.1 =
      [WatcherEv.listUpdate [⟨"usr_1", "A"⟩, ⟨"usr_2", "B"⟩], WatcherEv.heartbeat] ∧
    (watcherStep true 30 ⟨{"usr_1", "usr_2"}, false, 1⟩
      (.ok [⟨"usr_1", "A"⟩, ⟨"usr_2", "B"⟩, ⟨"usr_3", "C"⟩])).2.1.countP
        WatcherEv.isOnlineNow = 1 :=
  ⟨rfl, rfl, by decide, by decide, by decide,
   (first_run_suppression 30 30 ⟨∅, true, 1⟩ ⟨{"usr_1", "usr_2"}, false, 1⟩
     [⟨"usr_1", "A"⟩, ⟨"usr_2", "B"⟩] [⟨"usr_1", "A"⟩, ⟨"usr_2", "B"⟩, ⟨"usr_3", "C"⟩]
     "usr_3" rfl rfl (by decide) (by decide) (by decide)).1,
   (first_run_suppression 30 30 ⟨∅, true, 1⟩ ⟨{"usr_1", "usr_2"}, false, 1⟩
     [⟨"usr_1", "A"⟩, ⟨"usr_2", "B"⟩] [⟨"usr_1", "A"⟩, ⟨"usr_2", "B"⟩, ⟨"usr_3", "C"⟩]
     "usr_3" rfl rfl (by decide) (by decide) (by decide)).2.1⟩

/-- Helper: the id-keyed name lookup with the id as default is non-empty
whenever the id is and every cached name is. -/
theorem dictGet_ne_empty (m : List (String × String)) (k : String)
    (hk : k ≠ "") (hm : ∀ p ∈ m, p.2 ≠ "") : dictGet m k k ≠ "" := by
  unfold dictGet dictFind
  cases hfind : m.find? (fun p => p.1 == k) with
  | none => simpa using hk
  | some p =>
    have hp : p ∈ m := List.mem_of_find?_eq_some hfind
    simpa using hm p hp

/-- C10: every name field emitted by the push source's online, offline and
snapshot paths comes from `_known_names.get(uid, uid)`: for an id whose
display name was never learned the emitted name *is* the id, and all
emitted names are non-empty provided the tracked ids are (uids reaching
these handlers are truthy strings) and every cached name is non-empty
(names are only cached when truthy). -/
theorem emitted_name_fallback (f : Option (Finset String)) (el : Bool) (now : ℚ)
    (st : WSState) (uid uid' : String)
    (hmiss : dictFind st.knownNames uid = none)
    (hmiss' : dictFind st.knownNames uid' = none)
    (hne : uid ≠ "") (hne' : uid' ≠ "")
    (hcache : ∀ p ∈ st.knownNames, p.2 ≠ "")
    (hids : ∀ u ∈ st.prevOnlineIds, u ≠ "") :
    (∀ e ∈ (handleOnline f el now st uid).2, ∀ n ∈ e.nameFields, n = uid ∧ n ≠ "") ∧
    (∀ e ∈ (handleOffline f st uid').2, ∀ n ∈ e.nameFields, n = uid' ∧ n ≠ "") ∧
    (∀ e ∈ (flushListUpdate el now st).2, ∀ n ∈ e.nameFields, n ≠ "") := by
  have hget : dictGet st.knownNames uid uid = uid := by
    unfold dictGet
    rw [hmiss]
    rfl
  have hget2 : dictGet st.knownNames uid' uid' = uid' := by
    unfold dictGet
    rw [hmiss']
    rfl
  refine ⟨?_, ?_, ?_⟩
  · unfold handleOnline
    split
    · simp
    · split
      · simp
      · split
        · intro e he n hn
          rcases List.mem_cons.mp he with rfl | he2
          · simp only [WSEv.nameFields, List.mem_singleton] at hn
            subst hn
            exact ⟨hget, by rw [hget]; exact hne⟩
          · split at he2
            · rcases List.mem_singleton.mp he2 with rfl
              simp only [WSEv.nameFields, List.mem_singleton] at hn
              subst hn
              exact ⟨hget, by rw [hget]; exact hne⟩
            · simp at he2
        · intro e he n hn
          rcases List.mem_singleton.mp he with rfl
          simp only [WSEv.nameFields, List.mem_singleton] at hn
          subst hn
          exact ⟨hget, by rw [hget]; exact hne⟩
  · unfold handleOffline
    split
    · simp
    · split
      · intro e he n hn
        rcases List.mem_singleton.mp he with rfl
        simp only [WSEv.nameFields, List.mem_singleton] at hn
        subst hn
        exact ⟨hget2, by rw [hget2]; exact hne'⟩
      · simp
  · unfold flushListUpdate
    intro e he n hn
    split at he
    · rcases List.mem_singleton.mp he with rfl
      simp only [WSEv.nameFields, List.map_map] at hn
      obtain ⟨u, hu, rfl⟩ := List.mem_map.mp hn
      have hu2 : u ∈ st.prevOnlineIds := (Finset.mem_sort _).mp hu
      exact dictGet_ne_empty st.knownNames u (hids u hu2) hcache
    · simp at he

/-- Witness for `emitted_name_fallback`: a tracker knowing a name only for
`"usr_4"`, handling online `"usr_2"` and offline `"usr_3"`. -/
theorem emitted_name_fallback_witness :
    dictFind [("usr_4", "Dee")] "usr_2" = none ∧
    dictFind [("usr_4", "Dee")] "usr_3" = none ∧
    ("usr_2" : String) ≠ "" ∧ ("usr_3" : String) ≠ "" ∧
    (∀ p ∈ [(("usr_4", "Dee") : String × String)], p.2 ≠ "") ∧
    (∀ u ∈ ({"usr_1"} : Finset String), u ≠ "") ∧
    ((∀ e ∈ (handleOnline none true 10
        ⟨{"usr_1"}, [("usr_4", "Dee")], 0, false, ⟨20, 20, 60⟩, 300⟩ "usr_2").2,
        ∀ n ∈ e.nameFields, n = "usr_2" ∧ n ≠ "") ∧
     (∀ e ∈ (handleOffline none
        ⟨{"usr_1"}, [("usr_4", "Dee")], 0, false, ⟨20, 20, 60⟩, 300⟩ "usr_3").2,
        ∀ n ∈ e.nameFields, n = "usr_3" ∧ n ≠ "") ∧
     (∀ e ∈ (flushListUpdate true 10
        ⟨{"usr_1"}, [("usr_4", "Dee")], 0, false, ⟨20, 20, 60⟩, 300⟩).2,
        ∀ n ∈ e.nameFields, n ≠ "")) :=
  ⟨by decide, by decide, by decide, by decide, by decide, by decide,
   emitted_name_fallback none true 10 ⟨{"usr_1"}, [("usr_4", "Dee")], 0, false, ⟨20, 20, 60⟩, 300⟩
     "usr_2" "usr_3" (by decide) (by decide) (by decide) (by decide) (by decide) (by decide)⟩

